import Mathlib

/-!
A shallow embedding of the OmniBTC ordDev inscription transaction planner:
the wallet subcommands mint (repeat mint), mints (batch mint), transfer,
cancel and burt from src/subcommand/wallet/.  Pure data and arithmetic are
translated directly from the Rust source; the taproot cryptography (ephemeral
keypair, tweaked output key, reveal script bytes) is abstracted into opaque
numeric labels and a reveal-script length, since the claims under study only
depend on transaction topology, output values and serialized sizes.

Transaction ids in the source are SHA256d digests of the serialized
transaction; distinct transactions have distinct txids.  The embedding models
txids as symbolic labels (the commit transaction, the i-th reveal transaction,
or a wallet-funding outpoint), which is faithful to the reference semantics
up to hash collisions.
-/

inductive Network
  | bitcoin
  | testnet
  | signet
  | regtest
deriving DecidableEq, Repr

/-- Output script kinds used by the planner.  Only the script length, the
witness-program flag and equality are ever consulted, so scripts are carried
as tagged numeric payloads. -/
inductive ScriptPubKey
  | p2tr (key : Nat)
  | p2wpkh (key : Nat)
  | p2sh (h : Nat)
  | p2pkh (h : Nat)
  | opReturn (len : Nat)
deriving DecidableEq, Repr

/-- Serialized length in bytes of each script kind (standard encodings). -/
def ScriptPubKey.len : ScriptPubKey → Nat
  | .p2tr _ => 34
  | .p2wpkh _ => 22
  | .p2sh _ => 23
  | .p2pkh _ => 25
  | .opReturn n => 2 + n

def ScriptPubKey.isWitnessProgram : ScriptPubKey → Bool
  | .p2tr _ => true
  | .p2wpkh _ => true
  | _ => false

def ScriptPubKey.isOpReturn : ScriptPubKey → Bool
  | .opReturn _ => true
  | _ => false

/-- rust-bitcoin Script::dust_value: 3 sat/vB relay dust rule.  Yields the
standard thresholds 330 (P2TR), 294 (P2WPKH), 540 (P2SH), 546 (P2PKH). -/
def ScriptPubKey.dustValue (s : ScriptPubKey) : Nat :=
  if s.isOpReturn then 0
  else if s.isWitnessProgram then 3 * (9 + s.len + 67)
  else 3 * (9 + s.len + 148)

inductive AddressType
  | P2tr
  | P2wpkh
  | P2sh
  | P2pkh
deriving DecidableEq, Repr

/-- A wallet address: a network tag plus the address script. -/
structure Address where
  network : Network
  spk : ScriptPubKey
deriving DecidableEq, Repr

def Address.scriptPubkey (a : Address) : ScriptPubKey := a.spk

def Address.isValidForNetwork (a : Address) (n : Network) : Bool :=
  a.network = n

/-- rust-bitcoin Address::address_type, derived from the script kind. -/
def Address.addressType (a : Address) : Option AddressType :=
  match a.spk with
  | .p2tr _ => some .P2tr
  | .p2wpkh _ => some .P2wpkh
  | .p2sh _ => some .P2sh
  | .p2pkh _ => some .P2pkh
  | .opReturn _ => none

/-- Symbolic transaction ids: the commit transaction of the current planner
invocation, the i-th reveal transaction, a pre-existing wallet funding
transaction, or the all-zero null id used for sizing skeletons. -/
inductive Txid
  | commitTx
  | revealTx (i : Nat)
  | wallet (n : Nat)
  | null
deriving DecidableEq, Repr

structure OutPoint where
  txid : Txid
  vout : Nat
deriving DecidableEq, Repr

/-- OutPoint::null(): all-zero txid, vout u32::MAX. -/
def OutPoint.nullPoint : OutPoint := ⟨Txid.null, 4294967295⟩

structure SatPoint where
  outpoint : OutPoint
  offset : Nat
deriving DecidableEq, Repr

structure InscriptionId where
  txid : Txid
  index : Nat
deriving DecidableEq, Repr

structure TxOut where
  value : Nat
  scriptPubkey : ScriptPubKey
deriving DecidableEq, Repr

/-- A transaction input.  script_sig is always empty and sequence is always
ENABLE_RBF_NO_LOCKTIME in the planner, so only the previous output is kept;
witness stacks are handled by the size functions below. -/
structure TxIn where
  previousOutput : OutPoint
deriving DecidableEq, Repr

structure Transaction where
  version : Nat
  input : List TxIn
  output : List TxOut
  lockTime : Nat
deriving DecidableEq, Repr

/-- Bitcoin compact-size encoding length. -/
def varint (n : Nat) : Nat :=
  if n < 253 then 1 else if n < 65536 then 3 else 5

/-- Serialized size of an output list: 8-byte value plus length-prefixed
script for each output. -/
def outsSize (outs : List ScriptPubKey) : Nat :=
  outs.foldr (fun s a => 8 + varint s.len + s.len + a) 0

/-- Non-witness serialized size of a transaction with nIn inputs (each input
is 36-byte prevout + empty script_sig length byte + 4-byte sequence = 41
bytes) and the given output scripts. -/
def baseSize (nIn : Nat) (outs : List ScriptPubKey) : Nat :=
  4 + varint nIn + 41 * nIn + varint outs.length + outsSize outs + 4

/-- Serialized size of one input's witness stack, given the item sizes. -/
def witnessFieldSize (items : List Nat) : Nat :=
  varint items.length + items.foldr (fun l a => varint l + l + a) 0

/-- BIP141 weight of a witness-bearing transaction: 4 × base size plus the
segwit marker and flag plus all witness stacks (one stack per input). -/
def weightWith (nIn : Nat) (outs : List ScriptPubKey) (wits : List (List Nat)) : Nat :=
  4 * baseSize nIn outs + 2 + (wits.map witnessFieldSize).sum

/-- BIP141 virtual size: ceil(weight / 4). -/
def vsizeWith (nIn : Nat) (outs : List ScriptPubKey) (wits : List (List Nat)) : Nat :=
  (weightWith nIn outs wits + 3) / 4

/-- Modelled from the spec: ord FeeRate (not under src/).  A non-negative
sats/vB rate; the fee for a transaction of virtual size V is ceil(V × rate)
in sats (spec section 4.1). -/
abbrev FeeRate : Type := ℚ

/-- fee(vsize, rate) = ceil(vsize × rate), computed from the reduced
numerator and positive denominator of the rate: for a rational n/d in lowest
terms, ceil(n·v / d) = −floor(−n·v / d). -/
def FeeRate.fee (rate : FeeRate) (vsize : Nat) : Nat :=
  (-((-(rate.num * (vsize : Int))).fdiv (rate.den : Int))).toNat

def mkRate (q : ℚ) : FeeRate := q

/-- Modelled from the spec: TransactionBuilder::TARGET_POSTAGE (not under
src/) is 10_000 sats (spec sections 4.4 and 4.5). -/
def TARGET_POSTAGE : Nat := 10000

def MAX_STANDARD_TX_WEIGHT : Nat := 400000

/-- secp256k1 SCHNORR_SIGNATURE_SIZE: 64 bytes. -/
def SCHNORR_SIGNATURE_SIZE : Nat := 64

/-- Modelled from the spec: TransactionBuilder::P2WPKH_WINETSS_SIZE (not
under src/); a P2WPKH witness stack is sized at ~107 bytes (spec 4.1). -/
def P2WPKH_WINETSS_SIZE : Nat := 107

/-- Taproot control block for a depth-0 single-leaf tree: 33 bytes. -/
def CONTROL_BLOCK_SIZE : Nat := 33

/-- Planner error kinds; each constructor corresponds to one bail!/panic site
in the source. -/
inductive Err
  | invalidAddress
  | noCardinalUtxos
  | alreadyInscribedSat
  | alreadyInscribedUtxo
  | dustOutput
  | weightExceeded
  | insufficient
  | missingUtxo
  | expectFailed
  | inputLessThanFee
  | burtGuard
  | mustSendById
  | additionKind
  | inscriptionNotFound
deriving DecidableEq, Repr

/-- Association-list lookup over the wallet view (BTreeMap<OutPoint, Amount>,
kept in ascending key order). -/
def lookupUtxo : List (OutPoint × Nat) → OutPoint → Option Nat
  | [], _ => none
  | (o, v) :: rest, q => if o = q then some v else lookupUtxo rest q

/-- Fee estimate for a funding transaction with nIn inputs (one placeholder
witness item of witSize bytes each) and the given output scripts. -/
def estFee (rate : FeeRate) (witSize nIn : Nat) (outSpks : List ScriptPubKey) : Nat :=
  rate.fee (vsizeWith nIn outSpks (List.replicate nIn [witSize]))

/-- Modelled from the spec: the greedy coin-selection loop of ord
TransactionBuilder (section 4.3, step 3; the builder itself is not under
src/).  Cardinal candidates are added in wallet order until the accumulated
input value covers target + estimated fee, the estimate being recomputed each
iteration; returns the extra outpoints chosen and the total input value. -/
def selectCardinals (rate : FeeRate) (witSize : Nat) (outSpks : List ScriptPubKey)
    (target : Nat) :
    List (OutPoint × Nat) → List OutPoint → Nat → Nat → Option (List OutPoint × Nat)
  | cands, acc, nIn, accVal =>
    if target + estFee rate witSize nIn outSpks ≤ accVal then some (acc.reverse, accVal)
    else
      match cands with
      | [] => none
      | c :: rest => selectCardinals rate witSize outSpks target rest (c.1 :: acc) (nIn + 1) (accVal + c.2)

/-- Modelled from the spec: ord TransactionBuilder::build_transaction_with_value
(sections 4.3 and 4.4; not under src/).  The anchor satpoint's outpoint is the
first input; further cardinal (non-inscribed) UTXOs are added greedily; the
payment output comes first with exactly the target value, the remainder goes
to the first change address unless it is below the change script's dust
threshold, in which case it is absorbed into the fee. -/
def buildTransactionWithValue (witSize : Nat) (satpoint : SatPoint)
    (inscriptions : List (SatPoint × InscriptionId)) (utxos : List (OutPoint × Nat))
    (recipient : ScriptPubKey) (change : Address) (rate : FeeRate) (target : Nat) :
    Except Err Transaction :=
  match lookupUtxo utxos satpoint.outpoint with
  | none => .error .missingUtxo
  | some v0 =>
    let inscribed := inscriptions.map (fun p => p.1.outpoint)
    let cands := utxos.filter
      (fun p => decide (p.1 ∉ inscribed ∧ p.1 ≠ satpoint.outpoint))
    let outSpks := [recipient, change.spk]
    match selectCardinals rate witSize outSpks target cands [] 1 v0 with
    | none => .error .insufficient
    | some (extra, val) =>
      let ins := satpoint.outpoint :: extra
      let fee := estFee rate witSize ins.length outSpks
      let changeVal := val - target - fee
      let outs :=
        if changeVal < change.spk.dustValue then [⟨target, recipient⟩]
        else [⟨target, recipient⟩, ⟨changeVal, change.spk⟩]
      .ok ⟨1, ins.map TxIn.mk, outs, 0⟩

/-- Sum of the wallet-view values of a list of outpoints; errors if any of
them is missing from the view. -/
def sumLookups (utxos : List (OutPoint × Nat)) : List OutPoint → Except Err Nat
  | [] => .ok 0
  | o :: rest =>
    match lookupUtxo utxos o with
    | none => .error .missingUtxo
    | some v =>
      match sumLookups utxos rest with
      | .error e => .error e
      | .ok s => .ok (v + s)

/-- Modelled from the spec: ord TransactionBuilder::build_multi_outgoing_with_value
and ..._with_op_return (sections 4.3 and 4.6; not under src/).  All outgoing
satpoints' outpoints are anchors and become the first inputs; the destination
output comes first with exactly the target value, then optional change, then
the optional zero-valued OP_RETURN output. -/
def buildMultiOutgoing (witSize : Nat) (satpoints : List SatPoint)
    (inscriptions : List (SatPoint × InscriptionId)) (utxos : List (OutPoint × Nat))
    (destination : ScriptPubKey) (change : Address) (rate : FeeRate) (target : Nat)
    (opReturnLen : Option Nat) : Except Err Transaction :=
  match sumLookups utxos (satpoints.map (fun s => s.outpoint)) with
  | .error e => .error e
  | .ok v0 =>
    let anchors := satpoints.map (fun s => s.outpoint)
    let inscribed := inscriptions.map (fun p => p.1.outpoint)
    let cands := utxos.filter
      (fun p => decide (p.1 ∉ inscribed ∧ p.1 ∉ anchors))
    let opOuts := (opReturnLen.map (fun n => ScriptPubKey.opReturn n)).toList
    let outSpks := [destination, change.spk] ++ opOuts
    match selectCardinals rate witSize outSpks target cands [] anchors.length v0 with
    | none => .error .insufficient
    | some (extra, val) =>
      let ins := anchors ++ extra
      let fee := estFee rate witSize ins.length outSpks
      let changeVal := val - target - fee
      let changeOuts : List TxOut :=
        if changeVal < change.spk.dustValue then [] else [⟨changeVal, change.spk⟩]
      let outs := ⟨target, destination⟩ :: changeOuts
        ++ (opReturnLen.map (fun n => TxOut.mk 0 (ScriptPubKey.opReturn n))).toList
      .ok ⟨1, ins.map TxIn.mk, outs, 0⟩

/-- One PSBT input: the planner only ever fills the witness_utxo hint. -/
structure PsbtInput where
  witnessUtxo : Option TxOut
deriving DecidableEq, Repr

structure Psbt where
  unsignedTx : Transaction
  inputs : List PsbtInput
deriving DecidableEq, Repr

/-- The witness-utxo hints of get_psbt: for every input, look the previous
output up in the wallet view (failing with the "wallet contains no cardinal
utxos" error if absent) and pair its amount with the given address's script,
regardless of the prevout's actual script. -/
def psbtHints (utxos : List (OutPoint × Nat)) (addr : Address) :
    List TxIn → Except Err (List PsbtInput)
  | [] => .ok []
  | txin :: rest =>
    match lookupUtxo utxos txin.previousOutput with
    | none => .error .missingUtxo
    | some v =>
      match psbtHints utxos addr rest with
      | .error e => .error e
      | .ok tl => .ok (⟨some ⟨v, addr.spk⟩⟩ :: tl)

/-- get_psbt as implemented identically in mint.rs, mints.rs, transfer.rs,
cancel.rs and burt.rs: wrap the unsigned transaction and populate each
input's witness_utxo hint from the wallet view and the given address (the
source address for mint/mints/transfer/cancel, the destination for burt). -/
def getPsbt (tx : Transaction) (utxos : List (OutPoint × Nat)) (addr : Address) :
    Except Err Psbt :=
  match psbtHints utxos addr tx.input with
  | .error e => .error e
  | .ok hints => .ok ⟨tx, hints⟩

/-- Anchor-satpoint selection shared by mint.rs and mints.rs
create_inscription_transactions: an explicit satpoint is used as given,
otherwise the first wallet outpoint that carries no inscription is taken at
offset 0; "wallet contains no cardinal utxos" otherwise. -/
def pickSatpoint (satpoint : Option SatPoint) (inscriptions : List (SatPoint × InscriptionId))
    (utxos : List (OutPoint × Nat)) : Except Err SatPoint :=
  match satpoint with
  | some s => .ok s
  | none =>
    let inscribedUtxos := inscriptions.map (fun p => p.1.outpoint)
    match utxos.find? (fun p => decide (p.1 ∉ inscribedUtxos)) with
    | some p => .ok ⟨p.1, 0⟩
    | none => .error .noCardinalUtxos

/-- The inscription-conflict loop of create_inscription_transactions: the
first inscription whose satpoint equals the anchor gives the "sat already
inscribed" error, the first sharing only the outpoint gives the "utxo already
inscribed" error. -/
def checkInscribed (inscriptions : List (SatPoint × InscriptionId)) (sp : SatPoint) :
    Option Err :=
  inscriptions.findSome? (fun p =>
    if p.1 = sp then some .alreadyInscribedSat
    else if p.1.outpoint = sp.outpoint then some .alreadyInscribedUtxo
    else none)

/-- Arguments of mint.rs Mint::create_inscription_transactions.  The
ephemeral taproot key and the reveal script built from the inscription are
abstracted into the commit-address label commitKey and the script byte length
revealScriptLen. -/
structure MintArgs where
  satpoint : Option SatPoint
  inscriptions : List (SatPoint × InscriptionId)
  utxos : List (OutPoint × Nat)
  change : Address
  destination : Address
  commitFeeRate : FeeRate
  revealFeeRate : FeeRate
  noLimit : Bool
  serviceAddress : Address
  repeatCount : Nat
  serviceFee : Nat
  commitKey : Nat
  revealScriptLen : Nat
deriving DecidableEq, Repr

/-- The commit taproot address script P2TR(Q). -/
def MintArgs.commitSpk (a : MintArgs) : ScriptPubKey := .p2tr a.commitKey

/-- Output script shapes of the sizing pass (mint.rs lines 267-309): for a
single mint the destination and the service output; for the head of a chain
additionally the same-leaf next-commit output; for middle positions the
destination and next-commit; for the tail only the destination. -/
def MintArgs.revealScripts (a : MintArgs) (i : Nat) : List ScriptPubKey :=
  if i = 0 ∧ a.repeatCount = 1 then [a.destination.spk, a.serviceAddress.spk]
  else if i = 0 ∧ 1 < a.repeatCount then [a.destination.spk, a.commitSpk, a.serviceAddress.spk]
  else if i + 1 < a.repeatCount then [a.destination.spk, a.commitSpk]
  else [a.destination.spk]

/-- Witness stack of a taproot script-path reveal spend used for sizing and
carried by the final transaction: 64-byte Schnorr signature, the reveal
script, the 33-byte control block. -/
def MintArgs.revealWitness (a : MintArgs) : List Nat :=
  [SCHNORR_SIGNATURE_SIZE, a.revealScriptLen, CONTROL_BLOCK_SIZE]

/-- The per-position reveal fee computed by build_reveal_transaction on the
zero-valued output skeleton. -/
def MintArgs.revealFee (a : MintArgs) (i : Nat) : Nat :=
  a.revealFeeRate.fee (vsizeWith 1 (a.revealScripts i) [a.revealWitness])

/-- The next_remain_fees vector of mint.rs (lines 317-327), read at index i:
the funds the i-th reveal must forward so that every later reveal can pay its
fee and postage.  The source builds the vector from the tail down and
reverses it; entry i equals fee(i+1) + entry(i+1) + TARGET_POSTAGE when a
successor exists and is absent (read as zero) otherwise.  The recursion runs
on the explicit fuel repeat − i so that it is structural. -/
def MintArgs.nextRemainAux (a : MintArgs) : Nat → Nat → Nat
  | 0, _ => 0
  | d + 1, i =>
    if i + 1 < a.repeatCount then
      a.revealFee (i + 1) + a.nextRemainAux d (i + 1) + TARGET_POSTAGE
    else 0

def MintArgs.nextRemain (a : MintArgs) (i : Nat) : Nat :=
  a.nextRemainAux (a.repeatCount - i) i

/-- service_fee * repeat, as computed in mint.rs lines 339 and 351 (the
repeat-mint planner applies no anti-dust floor). -/
def MintArgs.serviceFeeTotal (a : MintArgs) : Nat := a.serviceFee * a.repeatCount

/-- Required commit output value (mint.rs lines 336-339). -/
def MintArgs.commitTarget (a : MintArgs) : Nat :=
  a.revealFee 0 + TARGET_POSTAGE + a.nextRemain 0 + a.serviceFeeTotal

/-- Reveal outputs of the building pass (mint.rs lines 355-397); same branch
structure as the sizing pass with the values filled in.  The service output
is always present in the two i = 0 branches, whatever the fee value. -/
def MintArgs.revealOutputs (a : MintArgs) (i : Nat) : List TxOut :=
  if i = 0 ∧ a.repeatCount = 1 then
    [⟨TARGET_POSTAGE, a.destination.spk⟩, ⟨a.serviceFeeTotal, a.serviceAddress.spk⟩]
  else if i = 0 ∧ 1 < a.repeatCount then
    [⟨TARGET_POSTAGE, a.destination.spk⟩, ⟨a.nextRemain 0, a.commitSpk⟩,
      ⟨a.serviceFeeTotal, a.serviceAddress.spk⟩]
  else if i + 1 < a.repeatCount then
    [⟨TARGET_POSTAGE, a.destination.spk⟩, ⟨a.nextRemain i, a.commitSpk⟩]
  else [⟨TARGET_POSTAGE, a.destination.spk⟩]

/-- The single input of the i-th reveal (mint.rs lines 399-403): the commit
output for R0, the predecessor's output 1 for every later position. -/
def MintArgs.revealInputPoint (a : MintArgs) (vout i : Nat) : OutPoint :=
  if i = 0 then ⟨Txid.commitTx, vout⟩ else ⟨Txid.revealTx (i - 1), 1⟩

def MintArgs.mkReveal (a : MintArgs) (vout i : Nat) : Transaction :=
  ⟨1, [⟨a.revealInputPoint vout i⟩], a.revealOutputs i, 0⟩

/-- Weight of the signed i-th reveal transaction. -/
def MintArgs.revealWeight (a : MintArgs) (i : Nat) : Nat :=
  weightWith 1 ((a.revealOutputs i).map (fun o => o.scriptPubkey)) [a.revealWitness]

/-- The per-reveal checks, in source order (mint.rs lines 413-415 and
447-453): "commit transaction output would be dust" when output 0 is below
the dust threshold of its script, then the MAX_STANDARD_TX_WEIGHT bound
unless no_limit is set. -/
def MintArgs.revealCheck (a : MintArgs) (i : Nat) : Option Err :=
  match (a.revealOutputs i).head? with
  | none => some .expectFailed
  | some o0 =>
    if o0.value < o0.scriptPubkey.dustValue then some .dustOutput
    else if ¬a.noLimit ∧ MAX_STANDARD_TX_WEIGHT < a.revealWeight i then some .weightExceeded
    else none

/-- First failing check over the reveal loop i = 0 .. repeat−1. -/
def MintArgs.firstRevealError (a : MintArgs) : Option Err :=
  (List.range a.repeatCount).findSome? a.revealCheck

structure MintResult where
  commitTx : Transaction
  reveals : List Transaction
  serviceFee : Nat
  satpointFee : Nat
  networkFee : Nat
deriving DecidableEq, Repr

/-- mint.rs Mint::create_inscription_transactions: pick and validate the
anchor satpoint, size the reveal chain tail-to-head, fund the commit through
the transaction builder, then build the reveal chain head-to-tail, checking
dust on output 0 and standard weight for each reveal.  The returned
recovery key pair is dropped by the embedding.  A repeat count of 0 makes the
source panic at reveal_fees[0]. -/
def Mint.createInscriptionTransactions (a : MintArgs) : Except Err MintResult :=
  match pickSatpoint a.satpoint a.inscriptions a.utxos with
  | .error e => .error e
  | .ok sp =>
    match checkInscribed a.inscriptions sp with
    | some e => .error e
    | none =>
      if a.repeatCount = 0 then .error .expectFailed
      else
        match buildTransactionWithValue SCHNORR_SIGNATURE_SIZE sp a.inscriptions a.utxos
            a.commitSpk a.change a.commitFeeRate a.commitTarget with
        | .error e => .error e
        | .ok commit =>
          match commit.output.findIdx? (fun o => decide (o.scriptPubkey = a.commitSpk)) with
          | none => .error .expectFailed
          | some vout =>
            match a.firstRevealError with
            | some e => .error e
            | none =>
              .ok ⟨commit, (List.range a.repeatCount).map (a.mkReveal vout),
                a.serviceFeeTotal, TARGET_POSTAGE * a.repeatCount,
                ((List.range a.repeatCount).map a.revealFee).sum⟩

/-- Arguments of mints.rs Mint::create_inscription_transactions.  Each
inscription contributes its reveal-script byte length and the label of its
own commit taproot address (the per-leaf key Q_i), in order. -/
structure MintsArgs where
  inputType : AddressType
  satpoint : Option SatPoint
  inscriptionData : List (Nat × Nat)
  inscriptions : List (SatPoint × InscriptionId)
  utxos : List (OutPoint × Nat)
  change : Address
  destination : Address
  commitFeeRate : FeeRate
  revealFeeRate : FeeRate
  noLimit : Bool
  serviceAddress : Address
  serviceFee : Nat
deriving DecidableEq, Repr

/-- repeat = inscription.len() (mints.rs line 320). -/
def MintsArgs.repeatCount (b : MintsArgs) : Nat := b.inscriptionData.length

def MintsArgs.scriptLen (b : MintsArgs) (i : Nat) : Nat :=
  ((b.inscriptionData.get? i).map Prod.fst).getD 0

/-- commit_tx_address[i] = P2TR(Q_i). -/
def MintsArgs.commitSpk (b : MintsArgs) (i : Nat) : ScriptPubKey :=
  .p2tr (((b.inscriptionData.get? i).map Prod.snd).getD 0)

/-- Total batch service fee (mints.rs lines 324-327): service_fee × repeat,
then raised to 600 sats when non-zero and below 600. -/
def MintsArgs.serviceFeeTotal (b : MintsArgs) : Nat :=
  let s := b.serviceFee * b.repeatCount
  if s ≠ 0 ∧ s < 600 then 600 else s

/-- Scripts of commit_tx_address[1..repeat], the next-commit outputs R0
creates for the later leaves. -/
def MintsArgs.nextCommitSpks (b : MintsArgs) : List ScriptPubKey :=
  ((List.range b.repeatCount).drop 1).map b.commitSpk

/-- The conditional service-address script: present only when the total
service fee is positive (mints.rs lines 335-340 and 353-358). -/
def MintsArgs.svcScripts (b : MintsArgs) : List ScriptPubKey :=
  if 0 < b.serviceFeeTotal then [b.serviceAddress.spk] else []

/-- Output script shapes of the sizing pass (mints.rs lines 330-365). -/
def MintsArgs.revealScripts (b : MintsArgs) (i : Nat) : List ScriptPubKey :=
  if i = 0 ∧ b.repeatCount = 1 then [b.destination.spk] ++ b.svcScripts
  else if i = 0 ∧ 1 < b.repeatCount then
    [b.destination.spk] ++ b.nextCommitSpks ++ b.svcScripts
  else [b.destination.spk]

def MintsArgs.revealWitness (b : MintsArgs) (i : Nat) : List Nat :=
  [SCHNORR_SIGNATURE_SIZE, b.scriptLen i, CONTROL_BLOCK_SIZE]

def MintsArgs.revealFee (b : MintsArgs) (i : Nat) : Nat :=
  b.revealFeeRate.fee (vsizeWith 1 (b.revealScripts i) [b.revealWitness i])

/-- Required commit output value (mints.rs lines 385-387): the sum of all
reveal fees plus one postage per leaf plus the total service fee. -/
def MintsArgs.commitTarget (b : MintsArgs) : Nat :=
  ((List.range b.repeatCount).map b.revealFee).sum
    + TARGET_POSTAGE * b.repeatCount + b.serviceFeeTotal

/-- Reveal outputs of the building pass (mints.rs lines 403-438): R0 pays the
destination one postage, then (for a batch of several) one next-commit output
per later leaf carrying that leaf's fee plus postage, then the service output
when the fee is positive; later reveals pay only the destination. -/
def MintsArgs.revealOutputs (b : MintsArgs) (i : Nat) : List TxOut :=
  let svcOuts : List TxOut :=
    if 0 < b.serviceFeeTotal then [⟨b.serviceFeeTotal, b.serviceAddress.spk⟩] else []
  if i = 0 ∧ b.repeatCount = 1 then [⟨TARGET_POSTAGE, b.destination.spk⟩] ++ svcOuts
  else if i = 0 ∧ 1 < b.repeatCount then
    [⟨TARGET_POSTAGE, b.destination.spk⟩]
      ++ ((List.range b.repeatCount).drop 1).map
        (fun j => TxOut.mk (b.revealFee j + TARGET_POSTAGE) (b.commitSpk j))
      ++ svcOuts
  else [⟨TARGET_POSTAGE, b.destination.spk⟩]

/-- The single input of the i-th batch reveal (mints.rs lines 440-444): the
commit output for R0, and for every later position output i of R0 itself. -/
def MintsArgs.revealInputPoint (b : MintsArgs) (vout i : Nat) : OutPoint :=
  if i = 0 then ⟨Txid.commitTx, vout⟩ else ⟨Txid.revealTx 0, i⟩

def MintsArgs.mkReveal (b : MintsArgs) (vout i : Nat) : Transaction :=
  ⟨1, [⟨b.revealInputPoint vout i⟩], b.revealOutputs i, 0⟩

def MintsArgs.revealWeight (b : MintsArgs) (i : Nat) : Nat :=
  weightWith 1 ((b.revealOutputs i).map (fun o => o.scriptPubkey)) [b.revealWitness i]

/-- Per-reveal checks in source order (mints.rs lines 454-456 and 488-494):
dust on output 0 only, then the standard-weight bound. -/
def MintsArgs.revealCheck (b : MintsArgs) (i : Nat) : Option Err :=
  match (b.revealOutputs i).head? with
  | none => some .expectFailed
  | some o0 =>
    if o0.value < o0.scriptPubkey.dustValue then some .dustOutput
    else if ¬b.noLimit ∧ MAX_STANDARD_TX_WEIGHT < b.revealWeight i then some .weightExceeded
    else none

def MintsArgs.firstRevealError (b : MintsArgs) : Option Err :=
  (List.range b.repeatCount).findSome? b.revealCheck

/-- Witness-placeholder size the funding builder uses for the source address
type (spec section 4.1). -/
def witSizeOf (t : AddressType) : Nat :=
  if t = .P2tr then SCHNORR_SIGNATURE_SIZE else P2WPKH_WINETSS_SIZE

/-- mints.rs Mint::create_inscription_transactions: like the repeat-mint
planner but with one reveal script and commit address per inscription, the
600-sat service-fee floor, conditional service outputs, and a star-shaped
chain in which R0 funds every later reveal directly.  An empty content list
makes the source panic at commit_tx_address[0]. -/
def Mints.createInscriptionTransactions (b : MintsArgs) : Except Err MintResult :=
  match pickSatpoint b.satpoint b.inscriptions b.utxos with
  | .error e => .error e
  | .ok sp =>
    match checkInscribed b.inscriptions sp with
    | some e => .error e
    | none =>
      if b.repeatCount = 0 then .error .expectFailed
      else
        match buildTransactionWithValue (witSizeOf b.inputType) sp b.inscriptions b.utxos
            (b.commitSpk 0) b.change b.commitFeeRate b.commitTarget with
        | .error e => .error e
        | .ok commit =>
          match commit.output.findIdx? (fun o => decide (o.scriptPubkey = b.commitSpk 0)) with
          | none => .error .expectFailed
          | some vout =>
            match b.firstRevealError with
            | some e => .error e
            | none =>
              .ok ⟨commit, (List.range b.repeatCount).map (b.mkReveal vout),
                b.serviceFeeTotal, TARGET_POSTAGE * b.repeatCount,
                ((List.range b.repeatCount).map b.revealFee).sum⟩

def Mint.SERVICE_FEE : Nat := 3000

structure MintBuildOutput where
  commitPsbt : Psbt
  result : MintResult
deriving DecidableEq, Repr

/-- mint.rs Mint::build (lines 51-140): default the repeat count to 1 and
the destination, service address and service fee to their fallbacks, check
that source and destination are valid for the network (no address-type
check), run the planner with change = [source, source], and wrap the commit
in a PSBT whose hints use the source address. -/
def Mint.build (net : Network) (source : Address) (destination : Option Address)
    (serviceAddress : Option Address) (serviceFee : Option Nat)
    (utxos : List (OutPoint × Nat)) (inscriptions : List (SatPoint × InscriptionId))
    (feeRate : FeeRate) (repeatOpt : Option Nat) (commitKey revealScriptLen : Nat) :
    Except Err MintBuildOutput :=
  let repeatCount := repeatOpt.getD 1
  let revealTxDestination := destination.getD source
  if !source.isValidForNetwork net then .error .invalidAddress
  else if !revealTxDestination.isValidForNetwork net then .error .invalidAddress
  else
    match Mint.createInscriptionTransactions
        ⟨none, inscriptions, utxos, source, revealTxDestination, feeRate, feeRate, false,
          serviceAddress.getD source, repeatCount, serviceFee.getD Mint.SERVICE_FEE,
          commitKey, revealScriptLen⟩ with
    | .error e => .error e
    | .ok r =>
      match getPsbt r.commitTx utxos source with
      | .error e => .error e
      | .ok psbt => .ok ⟨psbt, r⟩

/-- mints.rs Mint::build (lines 49-169): like the repeat-mint build but the
source address type must be P2TR or P2WPKH, and a whitelisted source pays no
service fee. -/
def Mints.build (net : Network) (source : Address) (destination : Option Address)
    (serviceAddress : Option Address) (serviceFee : Option Nat) (isWhitelist : Bool)
    (utxos : List (OutPoint × Nat)) (inscriptions : List (SatPoint × InscriptionId))
    (feeRate : FeeRate) (inscriptionData : List (Nat × Nat)) :
    Except Err MintBuildOutput :=
  let revealTxDestination := destination.getD source
  if !source.isValidForNetwork net then .error .invalidAddress
  else if !revealTxDestination.isValidForNetwork net then .error .invalidAddress
  else
    match source.addressType with
    | none => .error .invalidAddress
    | some t =>
      if t = .P2tr ∨ t = .P2wpkh then
        let svcFee := if isWhitelist then 0 else serviceFee.getD Mint.SERVICE_FEE
        match Mints.createInscriptionTransactions
            ⟨t, none, inscriptionData, inscriptions, utxos, source, revealTxDestination,
              feeRate, feeRate, false, serviceAddress.getD source, svcFee⟩ with
        | .error e => .error e
        | .ok r =>
          match getPsbt r.commitTx utxos source with
          | .error e => .error e
          | .ok psbt => .ok ⟨psbt, r⟩
      else .error .invalidAddress

inductive Outgoing
  | satPoint (s : SatPoint)
  | inscriptionId (id : InscriptionId)
  | amount (a : Nat)
deriving DecidableEq, Repr

structure TransferArgs where
  destination : Address
  source : Address
  outgoing : Outgoing
  feeRate : FeeRate
  opReturn : Option Nat
  brc20Transfer : Bool
  additionOutgoing : List Outgoing
  additionFee : Nat
deriving DecidableEq, Repr

/-- Additional outgoings of a satpoint-mode transfer (transfer.rs lines
99-110): each must itself be a satpoint and must not be a known inscription
satpoint. -/
def collectSatPoints (inscriptions : List (SatPoint × InscriptionId)) :
    List Outgoing → Except Err (List SatPoint)
  | [] => .ok []
  | .satPoint s :: rest =>
    if inscriptions.any (fun p => decide (p.1 = s)) then .error .mustSendById
    else
      match collectSatPoints inscriptions rest with
      | .error e => .error e
      | .ok tl => .ok (s :: tl)
  | _ :: _ => .error .additionKind

/-- Additional outgoings of a brc20 inscription-id transfer (transfer.rs
lines 139-159): each must be an inscription id and is anchored at
(id.txid, vout 0, offset 0) without consulting the id→satpoint index. -/
def collectBrc20 : List Outgoing → Except Err (List SatPoint)
  | [] => .ok []
  | .inscriptionId id :: rest =>
    match collectBrc20 rest with
    | .error e => .error e
    | .ok tl => .ok (⟨⟨id.txid, 0⟩, 0⟩ :: tl)
  | _ :: _ => .error .additionKind

/-- Additional outgoings of a plain inscription-id transfer (transfer.rs
lines 173-182): each must be an inscription id whose satpoint the index
knows. -/
def collectIds (idIndex : InscriptionId → Option SatPoint) :
    List Outgoing → Except Err (List SatPoint)
  | [] => .ok []
  | .inscriptionId id :: rest =>
    match idIndex id with
    | none => .error .inscriptionNotFound
    | some s =>
      match collectIds idIndex rest with
      | .error e => .error e
      | .ok tl => .ok (s :: tl)
  | _ :: _ => .error .additionKind

/-- The outgoing-resolution match of transfer.rs Transfer::build (lines
89-208), producing the outgoing satpoints and the destination target value.
Satpoint mode and brc20 inscription-id mode add the addition fee on top of
one postage per outgoing; plain inscription-id mode pays one postage per
outgoing with no addition fee; amount mode pays the amount plus the addition
fee. -/
def Transfer.resolveOutgoing (args : TransferArgs)
    (inscriptions : List (SatPoint × InscriptionId))
    (idIndex : InscriptionId → Option SatPoint) (utxos : List (OutPoint × Nat)) :
    Except Err (List SatPoint × Nat) :=
  match args.outgoing with
  | .satPoint s =>
    if inscriptions.any (fun p => decide (p.1 = s)) then .error .mustSendById
    else
      match collectSatPoints inscriptions args.additionOutgoing with
      | .error e => .error e
      | .ok adds =>
        .ok (s :: adds,
          TARGET_POSTAGE * (1 + args.additionOutgoing.length) + args.additionFee)
  | .inscriptionId id =>
    if args.brc20Transfer then
      match collectBrc20 args.additionOutgoing with
      | .error e => .error e
      | .ok adds =>
        .ok (⟨⟨id.txid, 0⟩, 0⟩ :: adds,
          TARGET_POSTAGE * (1 + args.additionOutgoing.length) + args.additionFee)
    else
      match idIndex id with
      | none => .error .inscriptionNotFound
      | some s =>
        match collectIds idIndex args.additionOutgoing with
        | .error e => .error e
        | .ok adds =>
          .ok (s :: adds, TARGET_POSTAGE * (1 + args.additionOutgoing.length))
  | .amount amt =>
    let inscribedUtxos := inscriptions.map (fun p => p.1.outpoint)
    match utxos.find? (fun p => decide (p.1 ∉ inscribedUtxos)) with
    | some p => .ok ([⟨p.1, 0⟩], amt + args.additionFee)
    | none => .error .noCardinalUtxos

/-- transfer.rs Transfer::build (lines 34-248): validate destination and
source for the network, admit only P2TR and P2WPKH sources, resolve the
outgoing satpoints and target value, fund through the multi-outgoing builder
(change = [source, source], optional OP_RETURN rider), and wrap as a PSBT
whose hints use the source address. -/
def Transfer.build (net : Network) (args : TransferArgs)
    (inscriptions : List (SatPoint × InscriptionId))
    (idIndex : InscriptionId → Option SatPoint) (utxos : List (OutPoint × Nat)) :
    Except Err Psbt :=
  if !args.destination.isValidForNetwork net then .error .invalidAddress
  else if !args.source.isValidForNetwork net then .error .invalidAddress
  else
    match args.source.addressType with
    | none => .error .invalidAddress
    | some t =>
      if t = .P2tr ∨ t = .P2wpkh then
        match Transfer.resolveOutgoing args inscriptions idIndex utxos with
        | .error e => .error e
        | .ok (satpoints, amount) =>
          match buildMultiOutgoing (witSizeOf t) satpoints inscriptions utxos
              args.destination.spk args.source args.feeRate amount args.opReturn with
          | .error e => .error e
          | .ok tx => getPsbt tx utxos args.source
      else .error .invalidAddress

structure CancelOutput where
  psbt : Psbt
  networkFee : Nat
  commitVsize : Nat
  commitFee : Nat
deriving DecidableEq, Repr

/-- cancel.rs Cancel::build_cancel_transaction (lines 148-177): one input per
outpoint carrying a placeholder witness of the size fitting the source
address type, the given outputs, and the fee computed on the resulting
virtual size. -/
def Cancel.buildCancelTransaction (rate : FeeRate) (inputs : List OutPoint)
    (output : List TxOut) (inputType : AddressType) : Transaction × Nat :=
  let witnessSize := if inputType = .P2tr then SCHNORR_SIGNATURE_SIZE else P2WPKH_WINETSS_SIZE
  let tx : Transaction := ⟨1, inputs.map TxIn.mk, output, 0⟩
  let fee := rate.fee (vsizeWith inputs.length (output.map (fun o => o.scriptPubkey))
    (inputs.map (fun _ => [witnessSize])))
  (tx, fee)

/-- cancel.rs Cancel::build (lines 28-91): validate the source for the
network and admit only P2TR and P2WPKH; build the placeholder one-output
transaction and its fee; sum the wallet-view values of the inputs (failing if
any is unknown); fail unless that total strictly exceeds the fee; pay the
source the total minus the fee and wrap as a PSBT with source-script hints. -/
def Cancel.build (net : Network) (source : Address) (inputs : List OutPoint)
    (rate : FeeRate) (unspent : List (OutPoint × Nat)) : Except Err CancelOutput :=
  if !source.isValidForNetwork net then .error .invalidAddress
  else
    match source.addressType with
    | none => .error .invalidAddress
    | some t =>
      if t = .P2tr ∨ t = .P2wpkh then
        let built := Cancel.buildCancelTransaction rate inputs [⟨0, source.spk⟩] t
        let commitVsize := vsizeWith inputs.length [source.spk]
          (inputs.map (fun _ => [witSizeOf t]))
        match sumLookups unspent inputs with
        | .error e => .error e
        | .ok amount =>
          if amount ≤ built.2 then .error .inputLessThanFee
          else
            let tx2 : Transaction := ⟨1, inputs.map TxIn.mk,
              [⟨amount - built.2, source.spk⟩], 0⟩
            match getPsbt tx2 unspent source with
            | .error e => .error e
            | .ok psbt => .ok ⟨psbt, built.2, commitVsize, built.2⟩
      else .error .invalidAddress

structure BurtOutput where
  psbt : Psbt
  networkFee : Nat
  serviceFee : Nat
  commitVsize : Nat
  commitFee : Nat
deriving DecidableEq, Repr

/-- burt.rs Burt::build_burt_transaction (lines 149-173): concatenate the
inputs of all given transactions in order, sum every output value of every
given transaction as last_output_amount, and compute the fee on the
aggregate one-output transaction.  Planner-created transactions carry no
witness, so the aggregate's virtual size equals its base size. -/
def Burt.buildBurtTransaction (rate : FeeRate) (burtTxs : List Transaction)
    (output : List TxOut) : Transaction × Nat × Nat :=
  let input := (burtTxs.map (fun t => t.input)).flatten
  let lastOutputAmount := (burtTxs.map (fun t => (t.output.map (fun o => o.value)).sum)).sum
  let tx : Transaction := ⟨1, input, output, 0⟩
  let fee := rate.fee (baseSize input.length (output.map (fun o => o.scriptPubkey)))
  (tx, fee, lastOutputAmount)

/-- burt.rs Burt::build (lines 30-92).  Its first statement is the guard
`if !self.burt_txs.is_empty() then bail with the message "Burt txs is empty"`,
so every request with a non-empty transaction list is rejected immediately;
only the empty list reaches the aggregation path.  getTxs stands for the
index collaborator's (utxo map, transactions) answer for the listed ids.
The reported min_fee_rate is a float ratio and is not modelled. -/
def Burt.build (net : Network) (destination : Address) (burtTxIds : List Txid)
    (rate : FeeRate) (getTxs : List (OutPoint × Nat) × List Transaction) :
    Except Err BurtOutput :=
  if burtTxIds ≠ [] then .error .burtGuard
  else if !destination.isValidForNetwork net then .error .invalidAddress
  else
    let burtUtxo := getTxs.1
    let built := Burt.buildBurtTransaction rate getTxs.2 [⟨0, destination.spk⟩]
    let commitVsize := baseSize built.1.input.length [destination.spk]
    match sumLookups burtUtxo (built.1.input.map (fun i => i.previousOutput)) with
    | .error e => .error e
    | .ok amount =>
      if amount ≤ built.2.1 then .error .inputLessThanFee
      else
        let tx2 : Transaction := ⟨built.1.version, built.1.input,
          [⟨amount - built.2.1, destination.spk⟩], built.1.lockTime⟩
        match getPsbt tx2 burtUtxo destination with
        | .error e => .error e
        | .ok psbt => .ok ⟨psbt, built.2.1, 0, commitVsize, built.2.1⟩

/-- The previous output referenced by the single input of the i-th reveal of
a planner result, when it exists. -/
def MintResult.revealPrevOut (r : MintResult) (i : Nat) : Option OutPoint :=
  (r.reveals.get? i).bind (fun t => (t.input.get? 0).map (fun x => x.previousOutput))

/-- Output k of the i-th reveal of a planner result, when it exists. -/
def MintResult.revealOutAt (r : MintResult) (i k : Nat) : Option TxOut :=
  (r.reveals.get? i).bind (fun t => t.output.get? k)

def defaultMintResult : MintResult := ⟨⟨0, [], [], 0⟩, [], 0, 0, 0⟩

deriving instance DecidableEq for Except

def srcA : Address := ⟨.bitcoin, .p2tr 5⟩

def dstA : Address := ⟨.bitcoin, .p2tr 6⟩

def svcA : Address := ⟨.bitcoin, .p2tr 7⟩

/-- A wallet view with a single large cardinal UTXO. -/
def walletU : List (OutPoint × Nat) := [(⟨Txid.wallet 1, 0⟩, 1000000)]

/-- Repeat mint of 2 copies at fee rate 1 with the default 3000-sat service
fee. -/
def mintArgsR2 : MintArgs :=
  ⟨none, [], walletU, srcA, dstA, 1, 1, false, svcA, 2, 3000, 9, 120⟩

/-- Batch mint of three distinct contents at fee rate 1. -/
def mintsArgsR3 : MintsArgs :=
  ⟨.P2tr, none, [(120, 11), (130, 12), (125, 13)], [], walletU, srcA, dstA, 1, 1,
    false, svcA, 3000⟩

/-- Batch mint of two distinct contents at fee rate 1. -/
def mintsArgsR2 : MintsArgs :=
  ⟨.P2tr, none, [(120, 11), (130, 12)], [], walletU, srcA, dstA, 1, 1, false, svcA, 3000⟩

/-- C2 counterexample: a repeat mint of one inscription with a 100-sat
per-mint service fee reports a 100-sat total and pays a 100-sat service
output: non-zero and below 600. -/
def mintArgsFee100 : MintArgs :=
  ⟨none, [], walletU, srcA, dstA, 1, 1, false, svcA, 1, 100, 9, 120⟩

/-- Repeat mint of one inscription with a zero service fee. -/
def mintArgsFee0 : MintArgs :=
  ⟨none, [], walletU, srcA, dstA, 1, 1, false, svcA, 1, 0, 9, 120⟩

/-- Batch mint of two inscriptions with a zero service fee. -/
def mintsArgsFee0 : MintsArgs :=
  ⟨.P2tr, none, [(120, 11), (130, 12)], [], walletU, srcA, dstA, 1, 1, false, svcA, 0⟩

def p2shSrc : Address := ⟨.bitcoin, .p2sh 3⟩

/-- The destination target value each outgoing mode actually computes
(transfer.rs lines 112-117, 161-166, 184-189 and 191-207): the addition fee
is included for satpoint mode, brc20 inscription-id mode and amount mode,
but not for plain inscription-id mode. -/
def Transfer.expectedTarget (args : TransferArgs) : Nat :=
  match args.outgoing with
  | .satPoint _ =>
    TARGET_POSTAGE * (1 + args.additionOutgoing.length) + args.additionFee
  | .inscriptionId _ =>
    if args.brc20Transfer then
      TARGET_POSTAGE * (1 + args.additionOutgoing.length) + args.additionFee
    else TARGET_POSTAGE * (1 + args.additionOutgoing.length)
  | .amount amt => amt + args.additionFee

/-- The inscribed satpoint and id used by the transfer scenarios. -/
def inscSp : SatPoint := ⟨⟨Txid.wallet 9, 0⟩, 0⟩

def inscIdC : InscriptionId := ⟨Txid.wallet 9, 0⟩

/-- Wallet view for the transfer scenarios: one cardinal UTXO and the
inscription-bearing UTXO. -/
def transferUtxos : List (OutPoint × Nat) :=
  [(⟨Txid.wallet 1, 0⟩, 1000000), (⟨Txid.wallet 9, 0⟩, 20000)]

/-- Plain (non-brc20) inscription-id transfer with a 5-sat addition fee. -/
def transferArgsId : TransferArgs :=
  ⟨dstA, srcA, .inscriptionId inscIdC, 1, none, false, [], 5⟩

def idIndexC : InscriptionId → Option SatPoint := fun _ => some inscSp

def defaultPsbt : Psbt := ⟨⟨0, [], [], 0⟩, []⟩

/-- Satpoint-mode transfer of a non-inscribed satpoint with a 5-sat addition
fee. -/
def transferSpC : SatPoint := ⟨⟨Txid.wallet 9, 0⟩, 0⟩

def transferArgsSp : TransferArgs :=
  ⟨dstA, srcA, .satPoint transferSpC, 1, none, false, [], 5⟩

/-- The placeholder-witness network fee of a cancel request, as computed by
build_cancel_transaction for the source's address type. -/
def Cancel.networkFee (rate : FeeRate) (inputs : List OutPoint) (source : Address) : Nat :=
  (Cancel.buildCancelTransaction rate inputs [⟨0, source.spk⟩]
    (source.addressType.getD .P2tr)).2

/-- Cancel scenario: two dangling commit outpoints worth 50000 and 40000. -/
def cancelInputs : List OutPoint := [⟨Txid.wallet 3, 0⟩, ⟨Txid.wallet 4, 0⟩]

def cancelUnspent : List (OutPoint × Nat) :=
  [(⟨Txid.wallet 3, 0⟩, 50000), (⟨Txid.wallet 4, 0⟩, 40000)]

def c10tx : Transaction := ⟨1, [⟨⟨Txid.wallet 3, 0⟩⟩], [⟨700, dstA.spk⟩], 0⟩

example : ScriptPubKey.dustValue (.p2tr 0) = 330 := by decide
example : ScriptPubKey.dustValue (.p2wpkh 0) = 294 := by decide
example : ScriptPubKey.dustValue (.p2pkh 0) = 546 := by decide
example : FeeRate.fee (mkRate 1) 188 = 188 := by decide
example : vsizeWith 1 [.p2tr 1, .p2tr 2] [[64, 100, 33]] = 188 := by decide

theorem Mint.create_ok_shape (a : MintArgs) (r : MintResult)
    (h : Mint.createInscriptionTransactions a = .ok r) :
    0 < a.repeatCount ∧ a.firstRevealError = none ∧ ∃ vout,
      r.reveals = (List.range a.repeatCount).map (a.mkReveal vout)
      ∧ r.serviceFee = a.serviceFeeTotal
      ∧ r.satpointFee = TARGET_POSTAGE * a.repeatCount
      ∧ r.networkFee = ((List.range a.repeatCount).map a.revealFee).sum := by
  unfold Mint.createInscriptionTransactions at h
  split at h
  · simp at h
  split at h
  · simp at h
  split at h
  · simp at h
  split at h
  · simp at h
  split at h
  · simp at h
  split at h
  · simp at h
  next _x hfirst =>
    injection h with h
    subst h
    exact ⟨by omega, hfirst, _, rfl, rfl, rfl, rfl⟩

theorem Mints.create_ok_shape_batch (b : MintsArgs) (r : MintResult)
    (h : Mints.createInscriptionTransactions b = .ok r) :
    0 < b.repeatCount ∧ b.firstRevealError = none ∧ ∃ vout,
      r.reveals = (List.range b.repeatCount).map (b.mkReveal vout)
      ∧ r.serviceFee = b.serviceFeeTotal
      ∧ r.satpointFee = TARGET_POSTAGE * b.repeatCount
      ∧ r.networkFee = ((List.range b.repeatCount).map b.revealFee).sum := by
  unfold Mints.createInscriptionTransactions at h
  split at h
  · simp at h
  split at h
  · simp at h
  split at h
  · simp at h
  split at h
  · simp at h
  split at h
  · simp at h
  split at h
  · simp at h
  next _x hfirst =>
    injection h with h
    subst h
    exact ⟨by omega, hfirst, _, rfl, rfl, rfl, rfl⟩

/-- C1: for every reveal chain and every position i > 0, reveal i spends the
next-commit output of reveal i−1 — amended: that is how the repeat-mint
planner links its chain (predecessor's output 1), but the batch planner
links every later reveal to R0 (output i of R0), so only position 1 spends
its immediate predecessor.  This theorem proves the amended linkage for both
planners. -/
theorem c1_reveal_chain_linkage (a : MintArgs) (ra : MintResult) (b : MintsArgs)
    (rb : MintResult) (i j : Nat)
    (ha : Mint.createInscriptionTransactions a = .ok ra)
    (hi0 : 0 < i) (hir : i < a.repeatCount)
    (hb : Mints.createInscriptionTransactions b = .ok rb)
    (hj0 : 0 < j) (hjr : j < b.repeatCount) :
    ra.revealPrevOut i = some ⟨Txid.revealTx (i - 1), 1⟩
    ∧ rb.revealPrevOut j = some ⟨Txid.revealTx 0, j⟩ := by
  obtain ⟨-, -, vouta, hra, -, -, -⟩ := Mint.create_ok_shape a ra ha
  obtain ⟨-, -, voutb, hrb, -, -, -⟩ := Mints.create_ok_shape_batch b rb hb
  have hi' : i ≠ 0 := by omega
  have hj' : j ≠ 0 := by omega
  constructor
  · simp [MintResult.revealPrevOut, hra, List.getElem?_map, List.getElem?_range hir,
      MintArgs.mkReveal, MintArgs.revealInputPoint, hi']
  · simp [MintResult.revealPrevOut, hrb, List.getElem?_map, List.getElem?_range hjr,
      MintsArgs.mkReveal, MintsArgs.revealInputPoint, hj']

set_option maxRecDepth 8000 in
/-- C1 counterexample: in a batch mint of three inscriptions, reveal 2 spends
output 2 of reveal 0, not an output of its predecessor reveal 1; reveals 0
and 1 are distinct transactions, hence have distinct txids. -/
theorem c1_counterexample :
    ((Mints.createInscriptionTransactions mintsArgsR3).toOption.getD
        defaultMintResult).revealPrevOut 2 = some ⟨Txid.revealTx 0, 2⟩
    ∧ Txid.revealTx 0 ≠ Txid.revealTx 1
    ∧ ((Mints.createInscriptionTransactions mintsArgsR3).toOption.getD
        defaultMintResult).reveals.get? 0
      ≠ ((Mints.createInscriptionTransactions mintsArgsR3).toOption.getD
        defaultMintResult).reveals.get? 1
    ∧ (Mints.createInscriptionTransactions mintsArgsR3).isOk = true := by decide

set_option maxRecDepth 8000 in
theorem c1_reveal_chain_linkage_witness :
    ((Mint.createInscriptionTransactions mintArgsR2).toOption.getD
        defaultMintResult).revealPrevOut 1 = some ⟨Txid.revealTx 0, 1⟩
    ∧ ((Mints.createInscriptionTransactions mintsArgsR2).toOption.getD
        defaultMintResult).revealPrevOut 1 = some ⟨Txid.revealTx 0, 1⟩ := by
  have ha : Mint.createInscriptionTransactions mintArgsR2
      = .ok ((Mint.createInscriptionTransactions mintArgsR2).toOption.getD
        defaultMintResult) := by decide
  have hb : Mints.createInscriptionTransactions mintsArgsR2
      = .ok ((Mints.createInscriptionTransactions mintsArgsR2).toOption.getD
        defaultMintResult) := by decide
  exact c1_reveal_chain_linkage _ _ _ _ 1 1 ha (by decide) (by decide) hb
    (by decide) (by decide)

theorem MintArgs.revealOutputs_head (a : MintArgs) (i : Nat) :
    (a.revealOutputs i).get? 0 = some ⟨TARGET_POSTAGE, a.destination.spk⟩ := by
  unfold MintArgs.revealOutputs
  split
  · rfl
  split
  · rfl
  split
  · rfl
  · rfl

theorem MintsArgs.revealOutputs_head_batch (b : MintsArgs) (i : Nat) :
    (b.revealOutputs i).get? 0 = some ⟨TARGET_POSTAGE, b.destination.spk⟩ := by
  unfold MintsArgs.revealOutputs
  by_cases h1 : i = 0 ∧ b.repeatCount = 1
  · simp [h1]
  · by_cases h2 : i = 0 ∧ 1 < b.repeatCount
    · obtain ⟨h2a, h2b⟩ := h2
      have hne : b.repeatCount ≠ 1 := by omega
      simp [h1, h2a, h2b, hne]
    · simp [h1, h2]

/-- C9: for every produced reveal chain of either planner, the destination
output at index 0 of each reveal has value exactly TARGET_POSTAGE (and pays
the destination script). -/
theorem c9_postage_preserved (a : MintArgs) (ra : MintResult) (b : MintsArgs)
    (rb : MintResult) (i j : Nat)
    (ha : Mint.createInscriptionTransactions a = .ok ra) (hir : i < a.repeatCount)
    (hb : Mints.createInscriptionTransactions b = .ok rb) (hjr : j < b.repeatCount) :
    ra.revealOutAt i 0 = some ⟨TARGET_POSTAGE, a.destination.spk⟩
    ∧ rb.revealOutAt j 0 = some ⟨TARGET_POSTAGE, b.destination.spk⟩ := by
  obtain ⟨-, -, vouta, hra, -, -, -⟩ := Mint.create_ok_shape a ra ha
  obtain ⟨-, -, voutb, hrb, -, -, -⟩ := Mints.create_ok_shape_batch b rb hb
  constructor
  · have h0 := MintArgs.revealOutputs_head a i
    simp [MintResult.revealOutAt, hra, List.getElem?_map, List.getElem?_range hir,
      MintArgs.mkReveal]
    simpa using h0
  · have h0 := MintsArgs.revealOutputs_head_batch b j
    simp [MintResult.revealOutAt, hrb, List.getElem?_map, List.getElem?_range hjr,
      MintsArgs.mkReveal]
    simpa using h0

set_option maxRecDepth 8000 in
theorem c9_postage_preserved_witness :
    ((Mint.createInscriptionTransactions mintArgsR2).toOption.getD
        defaultMintResult).revealOutAt 1 0 = some ⟨TARGET_POSTAGE, dstA.spk⟩
    ∧ ((Mints.createInscriptionTransactions mintsArgsR3).toOption.getD
        defaultMintResult).revealOutAt 2 0 = some ⟨TARGET_POSTAGE, dstA.spk⟩ := by
  have ha : Mint.createInscriptionTransactions mintArgsR2
      = .ok ((Mint.createInscriptionTransactions mintArgsR2).toOption.getD
        defaultMintResult) := by decide
  have hb : Mints.createInscriptionTransactions mintsArgsR3
      = .ok ((Mints.createInscriptionTransactions mintsArgsR3).toOption.getD
        defaultMintResult) := by decide
  exact c9_postage_preserved _ _ _ _ 1 2 ha (by decide) hb (by decide)

/-- C2: the total service fee equals per-mint fee × R rounded up to at least
600 sats when non-zero — amended: only the batch planner (mints.rs) applies
the 600-sat floor; the repeat planner (mint.rs) uses the bare product
per-mint fee × R with no floor, so it can report and pay a non-zero total
below 600. -/
theorem c2_service_fee_total (a : MintArgs) (ra : MintResult) (b : MintsArgs)
    (rb : MintResult)
    (ha : Mint.createInscriptionTransactions a = .ok ra)
    (hb : Mints.createInscriptionTransactions b = .ok rb) :
    ra.serviceFee = a.serviceFee * a.repeatCount
    ∧ rb.serviceFee = (if b.serviceFee * b.repeatCount ≠ 0
        ∧ b.serviceFee * b.repeatCount < 600 then 600
        else b.serviceFee * b.repeatCount)
    ∧ (rb.serviceFee = 0 ∨ 600 ≤ rb.serviceFee) := by
  obtain ⟨-, -, vouta, -, hsa, -, -⟩ := Mint.create_ok_shape a ra ha
  obtain ⟨-, -, voutb, -, hsb, -, -⟩ := Mints.create_ok_shape_batch b rb hb
  refine ⟨hsa, ?_, ?_⟩
  · rw [hsb]; rfl
  · rw [hsb]
    simp only [MintsArgs.serviceFeeTotal]
    by_cases hc : b.serviceFee * b.repeatCount ≠ 0 ∧ b.serviceFee * b.repeatCount < 600
    · rw [if_pos hc]; omega
    · rw [if_neg hc]; omega

set_option maxRecDepth 8000 in
/-- C2 counterexample statement. -/
theorem c2_counterexample :
    ((Mint.createInscriptionTransactions mintArgsFee100).toOption.getD
        defaultMintResult).serviceFee = 100
    ∧ ((Mint.createInscriptionTransactions mintArgsFee100).toOption.getD
        defaultMintResult).revealOutAt 0 1 = some ⟨100, svcA.spk⟩
    ∧ (Mint.createInscriptionTransactions mintArgsFee100).isOk = true
    ∧ (100 ≠ 0 ∧ 100 < 600) := by decide

set_option maxRecDepth 8000 in
theorem c2_service_fee_total_witness :
    ((Mint.createInscriptionTransactions mintArgsR2).toOption.getD
        defaultMintResult).serviceFee = 3000 * 2
    ∧ ((Mints.createInscriptionTransactions mintsArgsR3).toOption.getD
        defaultMintResult).serviceFee = (if 3000 * 3 ≠ 0 ∧ 3000 * 3 < 600 then 600
        else 3000 * 3)
    ∧ (((Mints.createInscriptionTransactions mintsArgsR3).toOption.getD
        defaultMintResult).serviceFee = 0
      ∨ 600 ≤ ((Mints.createInscriptionTransactions mintsArgsR3).toOption.getD
        defaultMintResult).serviceFee) := by
  have ha : Mint.createInscriptionTransactions mintArgsR2
      = .ok ((Mint.createInscriptionTransactions mintArgsR2).toOption.getD
        defaultMintResult) := by decide
  have hb : Mints.createInscriptionTransactions mintsArgsR3
      = .ok ((Mints.createInscriptionTransactions mintsArgsR3).toOption.getD
        defaultMintResult) := by decide
  exact c2_service_fee_total _ _ _ _ ha hb

theorem MintArgs.revealCheck_none_spec (a : MintArgs) (i : Nat)
    (h : a.revealCheck i = none) :
    ∃ o, (a.revealOutputs i).get? 0 = some o ∧ o.scriptPubkey.dustValue ≤ o.value := by
  unfold MintArgs.revealCheck at h
  cases h0 : (a.revealOutputs i).head? with
  | none => rw [h0] at h; simp at h
  | some o0 =>
    rw [h0] at h
    refine ⟨o0, ?_, ?_⟩
    · rw [List.get?_eq_getElem?, ← List.head?_eq_getElem?]
      exact h0
    · by_contra hle
      have hlt : o0.value < o0.scriptPubkey.dustValue := Nat.lt_of_not_le hle
      simp [hlt] at h

theorem MintsArgs.revealCheck_none_spec_batch (b : MintsArgs) (i : Nat)
    (h : b.revealCheck i = none) :
    ∃ o, (b.revealOutputs i).get? 0 = some o ∧ o.scriptPubkey.dustValue ≤ o.value := by
  unfold MintsArgs.revealCheck at h
  cases h0 : (b.revealOutputs i).head? with
  | none => rw [h0] at h; simp at h
  | some o0 =>
    rw [h0] at h
    refine ⟨o0, ?_, ?_⟩
    · rw [List.get?_eq_getElem?, ← List.head?_eq_getElem?]
      exact h0
    · by_contra hle
      have hlt : o0.value < o0.scriptPubkey.dustValue := Nat.lt_of_not_le hle
      simp [hlt] at h

/-- C4: the planners reject a chain when a reveal output is below the dust
threshold of its own script — amended: the dust check covers only the
destination output at index 0 of each reveal; next-commit and service-fee
outputs are not checked.  This theorem proves the guarantee that the check
does enforce: on success, output 0 of every reveal is at or above the dust
threshold of its script. -/
theorem c4_dust_checks_destination_only (a : MintArgs) (ra : MintResult)
    (b : MintsArgs) (rb : MintResult) (i j : Nat)
    (ha : Mint.createInscriptionTransactions a = .ok ra) (hir : i < a.repeatCount)
    (hb : Mints.createInscriptionTransactions b = .ok rb) (hjr : j < b.repeatCount) :
    (∃ o, ra.revealOutAt i 0 = some o ∧ o.scriptPubkey.dustValue ≤ o.value)
    ∧ (∃ o, rb.revealOutAt j 0 = some o ∧ o.scriptPubkey.dustValue ≤ o.value) := by
  obtain ⟨-, hfa, vouta, hra, -, -, -⟩ := Mint.create_ok_shape a ra ha
  obtain ⟨-, hfb, voutb, hrb, -, -, -⟩ := Mints.create_ok_shape_batch b rb hb
  constructor
  · have hchk : a.revealCheck i = none := by
      unfold MintArgs.firstRevealError at hfa
      exact List.findSome?_eq_none.mp hfa i (List.mem_range.mpr hir)
    obtain ⟨o, ho, hd⟩ := MintArgs.revealCheck_none_spec a i hchk
    refine ⟨o, ?_, hd⟩
    simp only [MintResult.revealOutAt, hra, List.get?_eq_getElem?, List.getElem?_map,
      List.getElem?_range hir, Option.map_some, Option.some_bind, MintArgs.mkReveal]
    rw [List.get?_eq_getElem?] at ho
    exact ho
  · have hchk : b.revealCheck j = none := by
      unfold MintsArgs.firstRevealError at hfb
      exact List.findSome?_eq_none.mp hfb j (List.mem_range.mpr hjr)
    obtain ⟨o, ho, hd⟩ := MintsArgs.revealCheck_none_spec_batch b j hchk
    refine ⟨o, ?_, hd⟩
    simp only [MintResult.revealOutAt, hrb, List.get?_eq_getElem?, List.getElem?_map,
      List.getElem?_range hjr, Option.map_some, Option.some_bind, MintsArgs.mkReveal]
    rw [List.get?_eq_getElem?] at ho
    exact ho

set_option maxRecDepth 8000 in
/-- C4 counterexample: a repeat mint with a 100-sat service fee succeeds and
its first reveal carries a service output of 100 sats, strictly below the
330-sat dust threshold of that output's own P2TR script: the planner does
not fail with a dust error. -/
theorem c4_counterexample :
    ((Mint.createInscriptionTransactions mintArgsFee100).toOption.getD
        defaultMintResult).revealOutAt 0 1 = some ⟨100, svcA.spk⟩
    ∧ 100 < ScriptPubKey.dustValue svcA.spk
    ∧ (Mint.createInscriptionTransactions mintArgsFee100).isOk = true := by decide

set_option maxRecDepth 8000 in
theorem c4_dust_checks_destination_only_witness :
    (∃ o, ((Mint.createInscriptionTransactions mintArgsR2).toOption.getD
        defaultMintResult).revealOutAt 0 0 = some o
      ∧ o.scriptPubkey.dustValue ≤ o.value)
    ∧ (∃ o, ((Mints.createInscriptionTransactions mintsArgsR3).toOption.getD
        defaultMintResult).revealOutAt 0 0 = some o
      ∧ o.scriptPubkey.dustValue ≤ o.value) := by
  have ha : Mint.createInscriptionTransactions mintArgsR2
      = .ok ((Mint.createInscriptionTransactions mintArgsR2).toOption.getD
        defaultMintResult) := by decide
  have hb : Mints.createInscriptionTransactions mintsArgsR3
      = .ok ((Mints.createInscriptionTransactions mintsArgsR3).toOption.getD
        defaultMintResult) := by decide
  exact c4_dust_checks_destination_only _ _ _ _ 0 0 ha (by decide) hb (by decide)

/-- C3: when the service fee is zero, the service output is omitted rather
than emitted with value 0 — amended: only the batch planner (mints.rs) omits
it; the repeat planner (mint.rs) always appends a service output to its
eligible reveals, so a zero fee yields a zero-valued output paying the
service address.  Conjunct one proves the omission for batch mints; conjunct
two exhibits the zero-valued service output the repeat planner emits as the
last output of its first reveal. -/
theorem c3_service_output_omission (a : MintArgs) (ra : MintResult) (b : MintsArgs)
    (rb : MintResult) (vb : Nat)
    (ha : Mint.createInscriptionTransactions a = .ok ra) (ha0 : a.serviceFee = 0)
    (hb : Mints.createInscriptionTransactions b = .ok rb) (hb0 : b.serviceFee = 0)
    (hd : b.serviceAddress.spk ≠ b.destination.spk)
    (hc : ∀ k, k < b.repeatCount → b.serviceAddress.spk ≠ b.commitSpk k)
    (hvb : vb < b.repeatCount) :
    (∀ t o, rb.reveals.get? vb = some t → o ∈ t.output →
        o.scriptPubkey ≠ b.serviceAddress.spk)
    ∧ (∃ t, ra.reveals.get? 0 = some t
        ∧ t.output.getLast? = some ⟨0, a.serviceAddress.spk⟩) := by
  obtain ⟨hrep, -, vouta, hra, -, -, -⟩ := Mint.create_ok_shape a ra ha
  obtain ⟨-, -, voutb, hrb, -, -, -⟩ := Mints.create_ok_shape_batch b rb hb
  have hstb : b.serviceFeeTotal = 0 := by simp [MintsArgs.serviceFeeTotal, hb0]
  have hsta : a.serviceFeeTotal = 0 := by simp [MintArgs.serviceFeeTotal, ha0]
  constructor
  · intro t o hjt ho
    rw [hrb, List.get?_eq_getElem?, List.getElem?_map, List.getElem?_range hvb] at hjt
    have ht : t = b.mkReveal voutb vb := by
      simpa using hjt.symm
    subst ht
    simp only [MintsArgs.mkReveal] at ho
    unfold MintsArgs.revealOutputs at ho
    simp only [hstb] at ho
    have hsvcnil :
        (if (0 : Nat) < 0 then [TxOut.mk 0 b.serviceAddress.spk] else []) = [] := by
      simp
    rw [hsvcnil] at ho
    by_cases h1 : vb = 0 ∧ b.repeatCount = 1
    · rw [if_pos h1] at ho
      simp at ho
      subst ho
      exact fun he => hd he.symm
    · rw [if_neg h1] at ho
      by_cases h2 : vb = 0 ∧ 1 < b.repeatCount
      · rw [if_pos h2] at ho
        simp [List.mem_append, List.mem_map] at ho
        rcases ho with ho | ⟨k, hk, hko⟩
        · subst ho
          exact fun he => hd he.symm
        · have hklt : k < b.repeatCount := by omega
          rw [← hko]
          exact fun he => hc k hklt he.symm
      · rw [if_neg h2] at ho
        simp at ho
        subst ho
        exact fun he => hd he.symm
  · refine ⟨a.mkReveal vouta 0, ?_, ?_⟩
    · rw [hra, List.get?_eq_getElem?, List.getElem?_map, List.getElem?_range hrep]
      rfl
    · simp only [MintArgs.mkReveal]
      show (a.revealOutputs 0).getLast? = some ⟨0, a.serviceAddress.spk⟩
      unfold MintArgs.revealOutputs
      rcases Nat.lt_or_ge 1 a.repeatCount with hlt | hge
      · have h1 : ¬(0 = 0 ∧ a.repeatCount = 1) := by omega
        rw [if_neg h1, if_pos ⟨rfl, hlt⟩, hsta]
        rfl
      · have h1 : a.repeatCount = 1 := by omega
        rw [if_pos ⟨rfl, h1⟩, hsta]
        rfl

set_option maxRecDepth 8000 in
/-- C3 counterexample: the repeat-mint planner with a zero service fee
succeeds and its reveal carries a zero-valued output paying the service
address, which differs from every other script in play. -/
theorem c3_counterexample :
    ((Mint.createInscriptionTransactions mintArgsFee0).toOption.getD
        defaultMintResult).revealOutAt 0 1 = some ⟨0, svcA.spk⟩
    ∧ svcA.spk ≠ dstA.spk ∧ svcA.spk ≠ srcA.spk ∧ svcA.spk ≠ ScriptPubKey.p2tr 9
    ∧ (Mint.createInscriptionTransactions mintArgsFee0).isOk = true := by decide

set_option maxRecDepth 8000 in
theorem c3_service_output_omission_witness :
    (∀ t o, ((Mints.createInscriptionTransactions mintsArgsFee0).toOption.getD
        defaultMintResult).reveals.get? 1 = some t → o ∈ t.output →
        o.scriptPubkey ≠ svcA.spk)
    ∧ (∃ t, ((Mint.createInscriptionTransactions mintArgsFee0).toOption.getD
        defaultMintResult).reveals.get? 0 = some t
        ∧ t.output.getLast? = some ⟨0, svcA.spk⟩) := by
  have ha : Mint.createInscriptionTransactions mintArgsFee0
      = .ok ((Mint.createInscriptionTransactions mintArgsFee0).toOption.getD
        defaultMintResult) := by decide
  have hb : Mints.createInscriptionTransactions mintsArgsFee0
      = .ok ((Mints.createInscriptionTransactions mintsArgsFee0).toOption.getD
        defaultMintResult) := by decide
  exact c3_service_output_omission _ _ _ _ 1 ha (by decide) hb (by decide)
    (by decide) (by decide) (by decide)

theorem pickSatpoint_error_spec (sps : Option SatPoint)
    (ins : List (SatPoint × InscriptionId)) (utxos : List (OutPoint × Nat)) (e : Err)
    (h : pickSatpoint sps ins utxos = .error e) : e = .noCardinalUtxos := by
  unfold pickSatpoint at h
  split at h
  · simp at h
  simp only [] at h
  split at h
  · simp at h
  · injection h with h; exact h.symm

theorem checkInscribed_some_spec (ins : List (SatPoint × InscriptionId)) (sp : SatPoint)
    (e : Err) (h : checkInscribed ins sp = some e) :
    e = .alreadyInscribedSat ∨ e = .alreadyInscribedUtxo := by
  unfold checkInscribed at h
  obtain ⟨p, hp, hf⟩ := List.exists_of_findSome?_eq_some h
  split at hf
  · left; injection hf with hf; exact hf.symm
  split at hf
  · right; injection hf with hf; exact hf.symm
  · simp at hf

theorem buildTransactionWithValue_error_spec (w : Nat) (sp : SatPoint)
    (ins : List (SatPoint × InscriptionId)) (utxos : List (OutPoint × Nat))
    (rec : ScriptPubKey) (chg : Address) (rate : FeeRate) (tgt : Nat) (e : Err)
    (h : buildTransactionWithValue w sp ins utxos rec chg rate tgt = .error e) :
    e = .missingUtxo ∨ e = .insufficient := by
  unfold buildTransactionWithValue at h
  split at h
  · left; injection h with h; exact h.symm
  simp only [] at h
  split at h
  · right; injection h with h; exact h.symm
  · simp at h

theorem MintArgs.revealCheck_some_spec (a : MintArgs) (i : Nat) (e : Err)
    (h : a.revealCheck i = some e) :
    e = .expectFailed ∨ e = .dustOutput ∨ e = .weightExceeded := by
  unfold MintArgs.revealCheck at h
  split at h
  · left; injection h with h; exact h.symm
  split at h
  · right; left; injection h with h; exact h.symm
  split at h
  · right; right; injection h with h; exact h.symm
  · simp at h

theorem psbtHints_error_spec (utxos : List (OutPoint × Nat)) (addr : Address) :
    ∀ (ins : List TxIn) (e : Err), psbtHints utxos addr ins = .error e →
      e = .missingUtxo := by
  intro ins
  induction ins with
  | nil => intro e h; simp [psbtHints] at h
  | cons t rest ih =>
    intro e h
    unfold psbtHints at h
    split at h
    · injection h with h; exact h.symm
    · split at h
      · next e' he' =>
        injection h with h
        subst h
        exact ih e' he'
      · simp at h

theorem getPsbt_error_spec (tx : Transaction) (utxos : List (OutPoint × Nat))
    (addr : Address) (e : Err) (h : getPsbt tx utxos addr = .error e) :
    e = .missingUtxo := by
  unfold getPsbt at h
  split at h
  · next e' he' =>
    injection h with h
    subst h
    exact psbtHints_error_spec utxos addr tx.input e' he'
  · simp at h

/-- The repeat-mint planner never produces the invalid-address error: none of
its bail sites concerns address types. -/
theorem Mint.create_error_ne_invalidAddress (a : MintArgs) (e : Err)
    (h : Mint.createInscriptionTransactions a = .error e) : e ≠ .invalidAddress := by
  unfold Mint.createInscriptionTransactions at h
  split at h
  · next e' he' =>
    injection h with h
    subst h
    rw [pickSatpoint_error_spec _ _ _ _ he']
    simp
  split at h
  · next e' he' =>
    injection h with h
    subst h
    rcases checkInscribed_some_spec _ _ _ he' with h' | h' <;> simp [h']
  split at h
  · injection h with h
    subst h
    simp
  split at h
  · next e' he' =>
    injection h with h
    subst h
    rcases buildTransactionWithValue_error_spec _ _ _ _ _ _ _ _ _ he' with h' | h' <;>
      simp [h']
  split at h
  · injection h with h
    subst h
    simp
  split at h
  · next e' he' =>
    injection h with h
    subst h
    unfold MintArgs.firstRevealError at he'
    obtain ⟨i, hi, hf⟩ := List.exists_of_findSome?_eq_some he'
    rcases MintArgs.revealCheck_some_spec _ _ _ hf with h' | h' | h' <;> simp [h']
  · simp at h

/-- C5: a repeat-mint request from a source whose address type is not P2TR
or P2WPKH is rejected with an invalid-address error — amended: only the
batch-mint build (mints.rs) performs that address-type check; the repeat-mint
build (mint.rs) validates only network membership, so a network-valid P2SH
source proceeds into transaction building.  Conjunct one proves the batch
rejection, conjunct two that the repeat-mint build can never answer with the
invalid-address error once its two network checks pass. -/
theorem c5_address_type_gate (net : Network) (source : Address)
    (destination : Option Address) (serviceAddress : Option Address)
    (serviceFee : Option Nat) (isWhitelist : Bool)
    (utxos : List (OutPoint × Nat)) (inscriptions : List (SatPoint × InscriptionId))
    (feeRate : FeeRate) (repeatOpt : Option Nat) (commitKey revealScriptLen : Nat)
    (inscriptionData : List (Nat × Nat))
    (hv : source.isValidForNetwork net = true)
    (hvd : (destination.getD source).isValidForNetwork net = true)
    (hty : source.addressType ≠ some .P2tr)
    (hty2 : source.addressType ≠ some .P2wpkh) :
    Mints.build net source destination serviceAddress serviceFee isWhitelist utxos
        inscriptions feeRate inscriptionData = .error .invalidAddress
    ∧ Mint.build net source destination serviceAddress serviceFee utxos inscriptions
        feeRate repeatOpt commitKey revealScriptLen ≠ .error .invalidAddress := by
  constructor
  · unfold Mints.build
    simp only [hv, hvd, Bool.not_true, Bool.false_eq_true, if_false]
    cases haty : source.addressType with
    | none => rfl
    | some t =>
      have hcond : ¬(t = .P2tr ∨ t = .P2wpkh) := by
        rintro (rfl | rfl)
        · exact hty haty
        · exact hty2 haty
      simp only []
      rw [if_neg hcond]
  · unfold Mint.build
    simp only [hv, hvd, Bool.not_true, Bool.false_eq_true, if_false]
    cases hc : Mint.createInscriptionTransactions
        ⟨none, inscriptions, utxos, source, destination.getD source, feeRate, feeRate,
          false, serviceAddress.getD source, repeatOpt.getD 1,
          serviceFee.getD Mint.SERVICE_FEE, commitKey, revealScriptLen⟩ with
    | error e =>
      intro hcontra
      simp only [] at hcontra
      injection hcontra with hcontra
      exact Mint.create_error_ne_invalidAddress _ _ hc hcontra
    | ok r =>
      cases hp : getPsbt r.commitTx utxos source with
      | error e =>
        intro hcontra
        simp only [] at hcontra
        rw [hp] at hcontra
        injection hcontra with hcontra
        subst hcontra
        exact absurd (getPsbt_error_spec _ _ _ _ hp) (by simp)
      | ok psbt =>
        intro hcontra
        simp only [] at hcontra
        rw [hp] at hcontra
        simp at hcontra

set_option maxRecDepth 8000 in
/-- C5 counterexample: a repeat-mint request from a network-valid P2SH source
succeeds end-to-end: the repeat-mint build has no address-type check. -/
theorem c5_counterexample :
    (Mint.build .bitcoin p2shSrc (some dstA) (some svcA) (some 3000) walletU []
        (mkRate 1) (some 2) 9 120).isOk = true
    ∧ p2shSrc.addressType = some .P2sh
    ∧ p2shSrc.isValidForNetwork .bitcoin = true := by decide

set_option maxRecDepth 8000 in
theorem c5_address_type_gate_witness :
    Mints.build .bitcoin p2shSrc (some dstA) (some svcA) (some 3000) false walletU []
        (mkRate 1) [(120, 11)] = .error .invalidAddress
    ∧ Mint.build .bitcoin p2shSrc (some dstA) (some svcA) (some 3000) walletU []
        (mkRate 1) (some 2) 9 120 ≠ .error .invalidAddress := by
  exact c5_address_type_gate .bitcoin p2shSrc (some dstA) (some svcA) (some 3000)
    false walletU [] (mkRate 1) (some 2) 9 120 [(120, 11)] (by decide) (by decide)
    (by decide) (by decide)

theorem Transfer.resolve_amount (args : TransferArgs)
    (inscriptions : List (SatPoint × InscriptionId))
    (idIndex : InscriptionId → Option SatPoint) (utxos : List (OutPoint × Nat))
    (sps : List SatPoint) (amt : Nat)
    (h : Transfer.resolveOutgoing args inscriptions idIndex utxos = .ok (sps, amt)) :
    amt = Transfer.expectedTarget args := by
  unfold Transfer.resolveOutgoing at h
  split at h
  · next s heq =>
    split at h
    · simp at h
    split at h
    · simp at h
    · next heq2 =>
      injection h with h
      have := congrArg Prod.snd h
      simp at this
      simp [Transfer.expectedTarget, heq, this.symm]
  · next id heq =>
    split at h
    · split at h
      · simp at h
      · next heq2 =>
        injection h with h
        have := congrArg Prod.snd h
        simp at this
        simp only [Transfer.expectedTarget, heq]
        rw [if_pos (by assumption), ← this]
    · split at h
      · simp at h
      · split at h
        · simp at h
        · next heq2 =>
          injection h with h
          have := congrArg Prod.snd h
          simp at this
          simp only [Transfer.expectedTarget, heq]
          rw [if_neg (by assumption), ← this]
  · next amt0 heq =>
    simp only [] at h
    split at h
    · next heq2 =>
      injection h with h
      have := congrArg Prod.snd h
      simp at this
      simp [Transfer.expectedTarget, heq, this.symm]
    · simp at h

theorem buildMultiOutgoing_out0 (w : Nat) (satpoints : List SatPoint)
    (inscriptions : List (SatPoint × InscriptionId)) (utxos : List (OutPoint × Nat))
    (destination : ScriptPubKey) (change : Address) (rate : FeeRate) (target : Nat)
    (opReturnLen : Option Nat) (tx : Transaction)
    (h : buildMultiOutgoing w satpoints inscriptions utxos destination change rate
        target opReturnLen = .ok tx) :
    tx.output.get? 0 = some ⟨target, destination⟩ := by
  unfold buildMultiOutgoing at h
  split at h
  · simp at h
  simp only [] at h
  split at h
  · simp at h
  · injection h with h
    subst h
    rfl

theorem getPsbt_ok_unsignedTx (tx : Transaction) (utxos : List (OutPoint × Nat))
    (addr : Address) (psbt : Psbt) (h : getPsbt tx utxos addr = .ok psbt) :
    psbt.unsignedTx = tx := by
  unfold getPsbt at h
  split at h
  · simp at h
  · injection h with h
    subst h
    rfl

/-- C6: the transfer destination output value — amended: it equals
TARGET_POSTAGE × (1 + number of additional outgoings) + addition_fee for
satpoint mode and for brc20 inscription-id mode, TARGET_POSTAGE × (1 +
number of additional outgoings) with no addition fee for plain
inscription-id mode, and amount + addition_fee for amount mode; the
destination output always comes first. -/
theorem c6_transfer_destination_value (net : Network) (args : TransferArgs)
    (inscriptions : List (SatPoint × InscriptionId))
    (idIndex : InscriptionId → Option SatPoint) (utxos : List (OutPoint × Nat))
    (psbt : Psbt)
    (h : Transfer.build net args inscriptions idIndex utxos = .ok psbt) :
    psbt.unsignedTx.output.get? 0
      = some ⟨Transfer.expectedTarget args, args.destination.spk⟩ := by
  unfold Transfer.build at h
  split at h
  · simp at h
  split at h
  · simp at h
  split at h
  · simp at h
  · next t haty =>
    split at h
    · split at h
      · simp at h
      · next pr heq =>
        split at h
        · simp at h
        · next tx htx =>
          have hu := getPsbt_ok_unsignedTx _ _ _ _ h
          rw [hu]
          have h0 := buildMultiOutgoing_out0 _ _ _ _ _ _ _ _ _ _ htx
          rw [h0]
          have ha := Transfer.resolve_amount _ _ _ _ _ _ heq
          rw [ha]
    · simp at h

set_option maxRecDepth 8000 in
/-- C6 counterexample: a plain inscription-id transfer with addition_fee = 5
succeeds with a destination output of exactly one postage (10000 sats), not
TARGET_POSTAGE × 1 + 5 = 10005 as the claim demands for inscription-id
mode. -/
theorem c6_counterexample :
    ((Transfer.build .bitcoin transferArgsId [(inscSp, inscIdC)] idIndexC
        transferUtxos).toOption.getD defaultPsbt).unsignedTx.output.get? 0
      = some ⟨10000, dstA.spk⟩
    ∧ (Transfer.build .bitcoin transferArgsId [(inscSp, inscIdC)] idIndexC
        transferUtxos).isOk = true
    ∧ transferArgsId.additionFee = 5
    ∧ 10000 ≠ TARGET_POSTAGE * (1 + transferArgsId.additionOutgoing.length)
        + transferArgsId.additionFee := by decide

set_option maxRecDepth 8000 in
theorem c6_transfer_destination_value_witness :
    ((Transfer.build .bitcoin transferArgsSp [] idIndexC transferUtxos).toOption.getD
        defaultPsbt).unsignedTx.output.get? 0
      = some ⟨Transfer.expectedTarget transferArgsSp, transferArgsSp.destination.spk⟩ := by
  have h : Transfer.build .bitcoin transferArgsSp [] idIndexC transferUtxos
      = .ok ((Transfer.build .bitcoin transferArgsSp [] idIndexC
        transferUtxos).toOption.getD defaultPsbt) := by decide
  exact c6_transfer_destination_value _ _ _ _ _ _ h

set_option maxRecDepth 8000 in
/-- C7: burt is specified to concatenate the inputs of a non-empty list of
previously built transactions into one transaction — but the build guard in
burt.rs (lines 37-39) is inverted: `if !burt_txs.is_empty() { bail!("Burt
txs is empty") }` rejects every non-empty list with a message claiming the
list is empty.  This theorem evaluates the build at a one-element list,
showing the immediate rejection, and shows that the aggregation function
itself does concatenate inputs in order as the claim describes. -/
theorem c7_burt_guard_rejects_nonempty :
    Burt.build .bitcoin dstA [Txid.wallet 3] (mkRate 1) ([], []) = .error .burtGuard
    ∧ (Burt.buildBurtTransaction (mkRate 1)
        [⟨1, [⟨⟨Txid.wallet 3, 0⟩⟩], [⟨700, srcA.spk⟩], 0⟩,
          ⟨1, [⟨⟨Txid.wallet 4, 1⟩⟩], [⟨800, srcA.spk⟩], 0⟩]
        [⟨0, dstA.spk⟩]).1.input
      = [⟨⟨Txid.wallet 3, 0⟩⟩, ⟨⟨Txid.wallet 4, 1⟩⟩] := by decide

theorem sumLookups_ok_mem (utxos : List (OutPoint × Nat)) :
    ∀ (l : List OutPoint) (s : Nat), sumLookups utxos l = .ok s →
      ∀ o ∈ l, lookupUtxo utxos o ≠ none := by
  intro l
  induction l with
  | nil => intro s _ o ho; simp at ho
  | cons x rest ih =>
    intro s h o ho
    unfold sumLookups at h
    split at h
    · simp at h
    · next v hv =>
      split at h
      · simp at h
      · next s' hs' =>
        rcases List.mem_cons.mp ho with rfl | ho'
        · rw [hv]; simp
        · exact ih s' hs' o ho'

theorem psbtHints_ok_of_present (utxos : List (OutPoint × Nat)) (addr : Address) :
    ∀ (ins : List TxIn),
      (∀ t ∈ ins, lookupUtxo utxos t.previousOutput ≠ none) →
      ∃ l, psbtHints utxos addr ins = .ok l := by
  intro ins
  induction ins with
  | nil => intro _; exact ⟨[], rfl⟩
  | cons t rest ih =>
    intro hall
    obtain ⟨tl, htl⟩ := ih (fun x hx => hall x (List.mem_cons_of_mem _ hx))
    cases hv : lookupUtxo utxos t.previousOutput with
    | none => exact absurd hv (hall t (List.mem_cons_self t rest))
    | some v =>
      refine ⟨⟨some ⟨v, addr.spk⟩⟩ :: tl, ?_⟩
      unfold psbtHints
      rw [hv, htl]

theorem getPsbt_ok_of_present (tx : Transaction) (utxos : List (OutPoint × Nat))
    (addr : Address)
    (hall : ∀ t ∈ tx.input, lookupUtxo utxos t.previousOutput ≠ none) :
    ∃ l, getPsbt tx utxos addr = .ok ⟨tx, l⟩ := by
  obtain ⟨l, hl⟩ := psbtHints_ok_of_present utxos addr tx.input hall
  refine ⟨l, ?_⟩
  unfold getPsbt
  rw [hl]

/-- C8: a cancel request with a network-valid P2TR or P2WPKH source whose
inputs are all known to the wallet view fails exactly when the total
wallet-view value of the inputs is not strictly greater than the fee of the
placeholder-witness transaction, and on success the built transaction has
exactly one output paying the source script the total minus that fee. -/
theorem c8_cancel_fee_gate (net : Network) (source : Address)
    (inputs : List OutPoint) (rate : FeeRate) (unspent : List (OutPoint × Nat))
    (total : Nat)
    (hv : source.isValidForNetwork net = true)
    (ht : source.addressType = some .P2tr ∨ source.addressType = some .P2wpkh)
    (htot : sumLookups unspent inputs = .ok total) :
    (total ≤ Cancel.networkFee rate inputs source →
      Cancel.build net source inputs rate unspent = .error .inputLessThanFee)
    ∧ (Cancel.networkFee rate inputs source < total →
      ∃ out, Cancel.build net source inputs rate unspent = .ok out
        ∧ out.psbt.unsignedTx.output
            = [⟨total - Cancel.networkFee rate inputs source, source.spk⟩]
        ∧ out.psbt.unsignedTx.input = inputs.map TxIn.mk) := by
  have hall : ∀ t ∈ inputs.map TxIn.mk, lookupUtxo unspent t.previousOutput ≠ none := by
    intro t ht'
    obtain ⟨o, ho, rfl⟩ := List.mem_map.mp ht'
    exact sumLookups_ok_mem unspent inputs total htot o ho
  rcases ht with hty | hty
  all_goals {
    unfold Cancel.build
    simp only [hv, Bool.not_true, Bool.false_eq_true, if_false, hty]
    simp only [Cancel.networkFee, hty, Option.getD_some]
    rw [htot, if_pos (by simp)]
    simp only []
    constructor
    · intro hle
      rw [if_pos hle]
    · intro hlt
      rw [if_neg (Nat.not_le.mpr hlt)]
      obtain ⟨l, hl⟩ := getPsbt_ok_of_present
        ⟨1, inputs.map TxIn.mk,
          [⟨total - Cancel.networkFee rate inputs source, source.spk⟩], 0⟩
        unspent source hall
      simp only [Cancel.networkFee, hty, Option.getD_some] at hl
      rw [hl]
      exact ⟨_, rfl, rfl, rfl⟩
  }

set_option maxRecDepth 8000 in
theorem c8_cancel_fee_gate_witness :
    ∃ out, Cancel.build .bitcoin srcA cancelInputs (mkRate 1) cancelUnspent = .ok out
      ∧ out.psbt.unsignedTx.output
          = [⟨90000 - Cancel.networkFee (mkRate 1) cancelInputs srcA, srcA.spk⟩]
      ∧ out.psbt.unsignedTx.input = cancelInputs.map TxIn.mk := by
  exact (c8_cancel_fee_gate .bitcoin srcA cancelInputs (mkRate 1) cancelUnspent 90000
    (by decide) (by decide) (by decide)).2 (by decide)

theorem psbtHints_ok_spec (utxos : List (OutPoint × Nat)) (addr : Address) :
    ∀ (ins : List TxIn) (l : List PsbtInput), psbtHints utxos addr ins = .ok l →
      l.length = ins.length ∧
      ∀ i t, ins.get? i = some t → ∃ v,
        lookupUtxo utxos t.previousOutput = some v
        ∧ l.get? i = some ⟨some ⟨v, addr.spk⟩⟩ := by
  intro ins
  induction ins with
  | nil =>
    intro l h
    have hl : l = [] := by
      unfold psbtHints at h
      injection h with h
      exact h.symm
    subst hl
    exact ⟨rfl, by intro i t ht; simp at ht⟩
  | cons x rest ih =>
    intro l h
    unfold psbtHints at h
    split at h
    · simp at h
    · next v hv =>
      split at h
      · simp at h
      · next tl htl =>
        injection h with h
        subst h
        obtain ⟨hlen, hpt⟩ := ih tl htl
        refine ⟨by simp [hlen], ?_⟩
        intro i t ht
        cases i with
        | zero =>
          simp at ht
          subst ht
          exact ⟨v, hv, by simp⟩
        | succ n =>
          simp at ht
          rw [← List.get?_eq_getElem?] at ht
          obtain ⟨v', hv', hl'⟩ := hpt n t ht
          exact ⟨v', hv', by simpa using hl'⟩

/-- C10: every PSBT the planner returns hints each input with witness_utxo =
(the wallet view's amount for that input's previous output, the given
address's script — the source for mint, mints, transfer and cancel, the
destination for burt) regardless of the prevout's actual script, and PSBT
construction succeeds only when every input's previous output is present in
the wallet view. -/
theorem c10_psbt_witness_utxo_hints (tx : Transaction) (utxos : List (OutPoint × Nat))
    (addr : Address) (psbt : Psbt) (h : getPsbt tx utxos addr = .ok psbt) :
    psbt.unsignedTx = tx
    ∧ psbt.inputs.length = tx.input.length
    ∧ (∀ i t, tx.input.get? i = some t → ∃ v,
        lookupUtxo utxos t.previousOutput = some v
        ∧ psbt.inputs.get? i = some ⟨some ⟨v, addr.spk⟩⟩)
    ∧ (∀ t ∈ tx.input, lookupUtxo utxos t.previousOutput ≠ none) := by
  unfold getPsbt at h
  split at h
  · simp at h
  · next l hl =>
    injection h with h
    subst h
    obtain ⟨hlen, hpt⟩ := psbtHints_ok_spec utxos addr tx.input l hl
    refine ⟨rfl, hlen, hpt, ?_⟩
    intro t htm
    obtain ⟨i, hi⟩ := List.mem_iff_get?.mp htm
    obtain ⟨v, hv, -⟩ := hpt i t hi
    simp [hv]

set_option maxRecDepth 8000 in
theorem c10_psbt_witness_utxo_hints_witness :
    ((getPsbt c10tx cancelUnspent srcA).toOption.getD defaultPsbt).unsignedTx = c10tx
    ∧ ((getPsbt c10tx cancelUnspent srcA).toOption.getD defaultPsbt).inputs.length
        = c10tx.input.length
    ∧ (∃ v, lookupUtxo cancelUnspent (⟨⟨Txid.wallet 3, 0⟩⟩ : TxIn).previousOutput = some v
        ∧ ((getPsbt c10tx cancelUnspent srcA).toOption.getD defaultPsbt).inputs.get? 0
          = some ⟨some ⟨v, srcA.spk⟩⟩) := by
  have h : getPsbt c10tx cancelUnspent srcA
      = .ok ((getPsbt c10tx cancelUnspent srcA).toOption.getD defaultPsbt) := by decide
  have hm := c10_psbt_witness_utxo_hints _ _ _ _ h
  exact ⟨hm.1, hm.2.1, hm.2.2.1 0 _ (by decide)⟩
